import Mathlib

/-!
Verification of the Korean schedule parser (src/lib/parse-korean-schedule.ts).

The parser is a pure function from an input sentence and options
(injected clock `now`, default event duration) to either a parsed
schedule or an error message.  This file embeds it shallowly:

* JavaScript `Date` values are modelled as `Int` timestamps counting
  milliseconds since the Unix epoch, interpreted in a fixed local
  timezone with no DST (the spec's local-wall-clock semantics).
  The `new Date(y, m, d, ...)` constructor, its field normalization
  (month / day / time overflow), the two-digit-year adjustment, and the
  component getters follow the ECMAScript specification, using the
  standard civil-from-days / days-from-civil decomposition of the
  proleptic Gregorian calendar.
* The source's single anchored regular expression `MATCHER` and the
  small regexes applied to its capture groups are executed by a small
  backtracking matcher with JavaScript semantics (ordered alternation,
  greedy quantifiers, leftmost match, capture groups).
* The token-resolution, validation and roll-forward pipeline of
  `parseKoreanSchedule` is translated statement by statement; stage
  definitions carry the source line numbers they come from.

Unicode NFC normalization (`input.normalize("NFC")`) is modelled as the
identity: every string handled here is already in composed form, where
NFC is the identity function.
-/

set_option maxRecDepth 40000

namespace KSP

/-! ## Calendar arithmetic (model of the ECMAScript Date built-ins)

`daysFromCivil` is the standard civil-calendar day numbering (Hinnant's
`days_from_civil`): day 0 is 1970-01-01, months are 1-based.  The
inverse `civilFromDays` computes year-of-era and month by downward
search, which makes the round-trip identity purely algebraic. -/

/-- Days from the start of a 400-year era to the start of year-of-era `yoe`. -/
def daysBeforeYoe (yoe : Int) : Int :=
  yoe * 365 + yoe / 4 - yoe / 100

/-- Days from the start of a March-based year to the start of shifted month
`mp` (0 = March, ..., 11 = February). -/
def mdaysAcc (mp : Int) : Int :=
  (153 * mp + 2) / 5

/-- Civil day number (1970-01-01 is day 0) of year `y`, month `m` (1-based),
day `d`; linear in `d`, so `d` outside the month's range normalizes exactly
as the ECMAScript `MakeDay` operation does. -/
def daysFromCivil (y m d : Int) : Int :=
  let yy : Int := if m ≤ 2 then y - 1 else y
  let era : Int := yy / 400
  let yoe : Int := yy - era * 400
  let mp : Int := if 2 < m then m - 3 else m + 9
  era * 146097 + daysBeforeYoe yoe + mdaysAcc mp + d - 1 - 719468

/-- Greatest `yoe ≤ k` with `daysBeforeYoe yoe ≤ doe` (0 if none). -/
def findYoeGo (doe : Int) : Nat → Int
  | 0 => 0
  | Nat.succ k =>
    if daysBeforeYoe ((k : Int) + 1) ≤ doe then (k : Int) + 1
    else findYoeGo doe k

/-- Year-of-era of day-of-era `doe`: greatest `yoe ∈ [0, 399]` whose first day
is at or before `doe`. -/
def findYoe (doe : Int) : Int := findYoeGo doe 399

/-- Greatest `mp ≤ k` with `mdaysAcc mp ≤ doy` (0 if none). -/
def findMpGo (doy : Int) : Nat → Int
  | 0 => 0
  | Nat.succ k =>
    if mdaysAcc ((k : Int) + 1) ≤ doy then (k : Int) + 1
    else findMpGo doy k

/-- Shifted month of day-of-year `doy`: greatest `mp ∈ [0, 11]` whose first day
is at or before `doy`. -/
def findMp (doy : Int) : Int := findMpGo doy 11

/-- Era (400-year cycle index) containing civil day `z`. -/
def eraOf (z : Int) : Int := (z + 719468) / 146097

/-- Day-of-era of civil day `z`, in `[0, 146096]`. -/
def doeOf (z : Int) : Int := (z + 719468) % 146097

/-- Year-of-era of civil day `z`. -/
def yoeOf (z : Int) : Int := findYoe (doeOf z)

/-- Day-of-year (March-based) of civil day `z`. -/
def doyOf (z : Int) : Int := doeOf z - daysBeforeYoe (yoeOf z)

/-- Shifted month index of civil day `z`. -/
def mpOf (z : Int) : Int := findMp (doyOf z)

/-- Calendar month (1-based) of civil day `z`. -/
def cdMonth (z : Int) : Int := if mpOf z < 10 then mpOf z + 3 else mpOf z - 9

/-- Day of month of civil day `z`. -/
def cdDay (z : Int) : Int := doyOf z - mdaysAcc (mpOf z) + 1

/-- Calendar year of civil day `z`. -/
def cdYear (z : Int) : Int :=
  yoeOf z + 400 * eraOf z + (if cdMonth z ≤ 2 then 1 else 0)

/-- Inverse of `daysFromCivil`: year, month (1-based), day of civil day `z`. -/
def civilFromDays (z : Int) : Int × Int × Int := (cdYear z, cdMonth z, cdDay z)

/-- ECMAScript `MakeDay`: civil day number for constructor arguments
`y` / `m0` (0-based month, arbitrary, normalized by carrying into the
year) / `d` (arbitrary, normalized by linearity). -/
def makeDay (y m0 d : Int) : Int :=
  daysFromCivil ((y * 12 + m0) / 12) ((y * 12 + m0) % 12 + 1) d

/-- Timestamp (ms) built from date-constructor-style fields without the
two-digit-year adjustment; this is what the `set*` methods use. -/
def mkTimestamp (y m0 d hh mi ss ms : Int) : Int :=
  makeDay y m0 d * 86400000 + hh * 3600000 + mi * 60000 + ss * 1000 + ms

/-- ECMAScript two-digit-year rule of the `Date` constructor:
years 0..99 mean 1900..1999. -/
def fullYearOfArg (y : Int) : Int :=
  if 0 ≤ y ∧ y ≤ 99 then y + 1900 else y

/-- Model of `new Date(y, m0, d, hh, mi, ss, ms)` (local time). -/
def jsDateOf (y m0 d hh mi ss ms : Int) : Int :=
  mkTimestamp (fullYearOfArg y) m0 d hh mi ss ms

/-- Civil day number containing timestamp `t`. -/
def dayNumber (t : Int) : Int := t / 86400000

/-- Model of `Date.prototype.getFullYear` (local time). -/
def getFullYear (t : Int) : Int := cdYear (dayNumber t)

/-- Model of `Date.prototype.getMonth` (0-based month). -/
def getMonth (t : Int) : Int := cdMonth (dayNumber t) - 1

/-- Model of `Date.prototype.getDate` (day of month). -/
def getDate (t : Int) : Int := cdDay (dayNumber t)

/-- Model of `Date.prototype.getDay` (0 = Sunday): day 0 (1970-01-01) was a
Thursday. -/
def getDay (t : Int) : Int := (dayNumber t + 4) % 7

/-- Model of `Date.prototype.getHours`. -/
def getHours (t : Int) : Int := (t / 3600000) % 24

/-- Model of `Date.prototype.getMinutes`. -/
def getMinutes (t : Int) : Int := (t / 60000) % 60

/-- Model of `Date.prototype.getSeconds`. -/
def getSeconds (t : Int) : Int := (t / 1000) % 60

/-- Model of `Date.prototype.getMilliseconds`. -/
def getMilliseconds (t : Int) : Int := t % 1000

/-! ## The source's date helper functions (part_001 lines 316-345). -/

/-- Source lines 316-318: midnight of the day containing `t`
(`new Date(getFullYear, getMonth, getDate)`). -/
def startOfDay (t : Int) : Int :=
  jsDateOf (getFullYear t) (getMonth t) (getDate t) 0 0 0 0

/-- Source lines 320-324: `setDate(getDate() + days)` on a copy of `t`. -/
def addDays (t days : Int) : Int :=
  mkTimestamp (getFullYear t) (getMonth t) (getDate t + days)
    (getHours t) (getMinutes t) (getSeconds t) (getMilliseconds t)

/-- Source lines 326-328: `new Date(getFullYear, getMonth + months, getDate)`. -/
def addMonths (t months : Int) : Int :=
  jsDateOf (getFullYear t) (getMonth t + months) (getDate t) 0 0 0 0

/-- Source lines 330-340: `new Date(getFullYear + years, getMonth, getDate,
getHours, getMinutes, getSeconds, getMilliseconds)`. -/
def addYears (t years : Int) : Int :=
  jsDateOf (getFullYear t + years) (getMonth t) (getDate t)
    (getHours t) (getMinutes t) (getSeconds t) (getMilliseconds t)

/-- Source lines 342-345: `new Date(year, month, 0).getDate()` is the last
day of 1-based month `month`, and a day is valid when in `[1, maxDay]`. -/
def isValidDayOfMonth (year month day : Int) : Bool :=
  let maxDay := getDate (jsDateOf year month 0 0 0 0 0)
  decide (1 ≤ day ∧ day ≤ maxDay)

/-! ### Sanity checks of the calendar model. -/

theorem sanity_epoch : daysFromCivil 1970 1 1 = 0 := by decide

theorem sanity_epoch_inv : civilFromDays 0 = (1970, 1, 1) := by decide

theorem sanity_leap_day : civilFromDays (daysFromCivil 2024 2 29) = (2024, 2, 29) := by decide

theorem sanity_feb17 : civilFromDays (daysFromCivil 2026 2 17) = (2026, 2, 17) := by decide

theorem sanity_day_of_week : getDay (jsDateOf 2026 1 17 0 0 0 0) = 2 := by decide

theorem sanity_last_day_feb : isValidDayOfMonth 2024 2 29 = true ∧ isValidDayOfMonth 2025 2 29 = false := by decide

/-! ### Arithmetic facts about the calendar model. -/

theorem findYoeGo_bounds (doe : Int) (k : Nat) :
    0 ≤ findYoeGo doe k ∧ findYoeGo doe k ≤ (k : Int) := by
  induction k with
  | zero => simp [findYoeGo]
  | succ n ih =>
    simp only [findYoeGo]
    split
    · constructor <;> omega
    · exact ⟨ih.1, by omega⟩

theorem findMpGo_bounds (doy : Int) (k : Nat) :
    0 ≤ findMpGo doy k ∧ findMpGo doy k ≤ (k : Int) := by
  induction k with
  | zero => simp [findMpGo]
  | succ n ih =>
    simp only [findMpGo]
    split
    · constructor <;> omega
    · exact ⟨ih.1, by omega⟩

theorem yoeOf_bounds (z : Int) : 0 ≤ yoeOf z ∧ yoeOf z ≤ 399 :=
  findYoeGo_bounds (doeOf z) 399

theorem mpOf_bounds (z : Int) : 0 ≤ mpOf z ∧ mpOf z ≤ 11 :=
  findMpGo_bounds (doyOf z) 11

theorem cdMonth_range (z : Int) : 1 ≤ cdMonth z ∧ cdMonth z ≤ 12 := by
  obtain ⟨h3, h4⟩ := mpOf_bounds z
  unfold cdMonth
  split <;> omega

theorem ediv_mul12 (x r : Int) (h0 : 0 ≤ r) (h1 : r < 12) : (x * 12 + r) / 12 = x := by
  omega

theorem emod_mul12 (x r : Int) (h0 : 0 ≤ r) (h1 : r < 12) : (x * 12 + r) % 12 = r := by
  omega

/-- With an in-range 0-based month there is no month carry in `makeDay`. -/
theorem makeDay_eval (y m0 d : Int) (h0 : 0 ≤ m0) (h1 : m0 < 12) :
    makeDay y m0 d = daysFromCivil y (m0 + 1) d := by
  unfold makeDay
  rw [ediv_mul12 y m0 h0 h1, emod_mul12 y m0 h0 h1]

/-- Closed form of `daysFromCivil` for March..December. -/
theorem daysFromCivil_closed (y m d : Int) (hm3 : 3 ≤ m) (hm12 : m ≤ 12) :
    daysFromCivil y m d
      = (y / 400) * 146097 + daysBeforeYoe (y % 400) + mdaysAcc (m - 3) + d - 1 - 719468 := by
  simp only [daysFromCivil]
  rw [if_neg (by omega : ¬ (m ≤ 2)), if_pos (by omega : 2 < m)]
  have h : y - y / 400 * 400 = y % 400 := by omega
  rw [h]

/-- Closed form of `daysFromCivil` for January and February. -/
theorem daysFromCivil_closed_feb (y m d : Int) (hm1 : 1 ≤ m) (hm2 : m ≤ 2) :
    daysFromCivil y m d
      = ((y - 1) / 400) * 146097 + daysBeforeYoe ((y - 1) % 400) + mdaysAcc (m + 9)
        + d - 1 - 719468 := by
  simp only [daysFromCivil]
  rw [if_pos hm2, if_neg (by omega : ¬ (2 < m))]
  have h : y - 1 - (y - 1) / 400 * 400 = (y - 1) % 400 := by omega
  rw [h]

theorem getMonth_range (t : Int) : 0 ≤ getMonth t ∧ getMonth t ≤ 11 := by
  have := cdMonth_range (dayNumber t)
  unfold getMonth
  omega

/-- Recomposition: `makeDay` applied to the components of `civilFromDays`
recovers the day number expression. -/
theorem makeDay_cfd (era yoe mp doy : Int) (h1 : 0 ≤ yoe) (h2 : yoe ≤ 399)
    (h3 : 0 ≤ mp) (h4 : mp ≤ 11) :
    makeDay (yoe + 400 * era + (if (if mp < 10 then mp + 3 else mp - 9) ≤ 2 then 1 else 0))
      ((if mp < 10 then mp + 3 else mp - 9) - 1) (doy - mdaysAcc mp + 1)
      = era * 146097 + daysBeforeYoe yoe + doy - 719468 := by
  rcases lt_or_ge mp 10 with hm | hm
  · rw [if_pos hm, if_neg (by omega : ¬ (mp + 3 ≤ 2))]
    rw [makeDay_eval _ _ _ (by omega) (by omega)]
    rw [daysFromCivil_closed _ _ _ (by omega) (by omega)]
    have e1 : (yoe + 400 * era + 0) / 400 = era := by omega
    have e2 : (yoe + 400 * era + 0) % 400 = yoe := by omega
    have e3 : mp + 3 - 1 + 1 - 3 = mp := by ring
    rw [e1, e2, e3]
    omega
  · rw [if_neg (by omega : ¬ (mp < 10)), if_pos (by omega : mp - 9 ≤ 2)]
    rw [makeDay_eval _ _ _ (by omega) (by omega)]
    rw [daysFromCivil_closed_feb _ _ _ (by omega) (by omega)]
    have e1 : (yoe + 400 * era + 1 - 1) / 400 = era := by omega
    have e2 : (yoe + 400 * era + 1 - 1) % 400 = yoe := by omega
    have e3 : mp - 9 - 1 + 1 + 9 = mp := by ring
    rw [e1, e2, e3]
    omega

/-- Round trip: rebuilding a day number from its civil components is exact. -/
theorem makeDay_inv (z : Int) : makeDay (cdYear z) (cdMonth z - 1) (cdDay z) = z := by
  obtain ⟨h1, h2⟩ := yoeOf_bounds z
  obtain ⟨h3, h4⟩ := mpOf_bounds z
  have h := makeDay_cfd (eraOf z) (yoeOf z) (mpOf z) (doyOf z) h1 h2 h3 h4
  have hcm : cdMonth z = if mpOf z < 10 then mpOf z + 3 else mpOf z - 9 := rfl
  have hcy : cdYear z = yoeOf z + 400 * eraOf z + (if cdMonth z ≤ 2 then 1 else 0) := rfl
  have hcd : cdDay z = doyOf z - mdaysAcc (mpOf z) + 1 := rfl
  have hz : eraOf z * 146097 + daysBeforeYoe (yoeOf z) + doyOf z - 719468 = z := by
    unfold doyOf eraOf doeOf
    omega
  rw [hz] at h
  rw [hcy, hcm, hcd]
  exact h

theorem makeDay_getters (t : Int) :
    makeDay (getFullYear t) (getMonth t) (getDate t) = dayNumber t := by
  unfold getFullYear getMonth getDate
  exact makeDay_inv (dayNumber t)

/-- Time of day (milliseconds since local midnight) of a timestamp. -/
def todOf (t : Int) : Int := t - 86400000 * dayNumber t

theorem todOf_bounds (t : Int) : 0 ≤ todOf t ∧ todOf t < 86400000 := by
  unfold todOf dayNumber
  omega

theorem timeOfDay_decomp (t : Int) :
    getHours t * 3600000 + getMinutes t * 60000 + getSeconds t * 1000 + getMilliseconds t
      = todOf t := by
  unfold getHours getMinutes getSeconds getMilliseconds todOf dayNumber
  omega

theorem rebuild_eq (t : Int) :
    mkTimestamp (getFullYear t) (getMonth t) (getDate t)
      (getHours t) (getMinutes t) (getSeconds t) (getMilliseconds t) = t := by
  have h1 := makeDay_getters t
  have h2 := timeOfDay_decomp t
  unfold mkTimestamp
  unfold todOf at h2
  omega

theorem makeDay_linear (y m0 d k : Int) (h0 : 0 ≤ m0) (h1 : m0 ≤ 11) :
    makeDay y m0 (d + k) = makeDay y m0 d + k := by
  rw [makeDay_eval y m0 (d + k) h0 (by omega), makeDay_eval y m0 d h0 (by omega)]
  rcases le_or_lt (m0 + 1) 2 with hm | hm
  · rw [daysFromCivil_closed_feb y _ (d + k) (by omega) hm,
      daysFromCivil_closed_feb y _ d (by omega) hm]
    omega
  · rw [daysFromCivil_closed y _ (d + k) (by omega) (by omega),
      daysFromCivil_closed y _ d (by omega) (by omega)]
    omega

theorem addDays_spec (t k : Int) : addDays t k = t + k * 86400000 := by
  have h1 := makeDay_getters t
  have h2 := timeOfDay_decomp t
  obtain ⟨hm0, hm1⟩ := getMonth_range t
  have h3 := makeDay_linear (getFullYear t) (getMonth t) (getDate t) k hm0 hm1
  unfold addDays mkTimestamp
  unfold todOf at h2
  omega

theorem makeDay_year_step (y m0 d : Int) (h0 : 0 ≤ m0) (h1 : m0 ≤ 11) :
    makeDay y m0 d + 365 ≤ makeDay (y + 1) m0 d := by
  rw [makeDay_eval y m0 d h0 (by omega), makeDay_eval (y + 1) m0 d h0 (by omega)]
  rcases le_or_lt (m0 + 1) 2 with hm | hm
  · rw [daysFromCivil_closed_feb y _ d (by omega) hm,
      daysFromCivil_closed_feb (y + 1) _ d (by omega) hm]
    unfold daysBeforeYoe
    omega
  · rw [daysFromCivil_closed y _ d (by omega) (by omega),
      daysFromCivil_closed (y + 1) _ d (by omega) (by omega)]
    unfold daysBeforeYoe
    omega

theorem makeDay_year_mono (m0 d : Int) (h0 : 0 ≤ m0) (h1 : m0 ≤ 11) :
    ∀ n : Nat, ∀ y : Int, makeDay y m0 d + 365 ≤ makeDay (y + 1 + (n : Int)) m0 d := by
  intro n
  induction n with
  | zero => intro y; simpa using makeDay_year_step y m0 d h0 h1
  | succ k ih =>
    intro y
    have hstep := makeDay_year_step (y + 1 + (k : Int)) m0 d h0 h1
    have hk := ih y
    have : y + 1 + ((k + 1 : Nat) : Int) = (y + 1 + (k : Int)) + 1 := by push_cast; omega
    rw [this]
    omega

theorem makeDay_year_lt (y1 y2 m0 d : Int) (h0 : 0 ≤ m0) (h1 : m0 ≤ 11) (h : y1 < y2) :
    makeDay y1 m0 d + 365 ≤ makeDay y2 m0 d := by
  have hy : y2 = y1 + 1 + ((y2 - y1 - 1).toNat : Int) := by omega
  rw [hy]
  exact makeDay_year_mono m0 d h0 h1 _ y1

theorem fullYearOfArg_ge (y : Int) : y ≤ fullYearOfArg y := by
  unfold fullYearOfArg
  split <;> omega

/-- One application of the source's `addYears(-, 1)` advances a timestamp by
at least 365 days. -/
theorem addYears_one_ge (t : Int) : t + 365 * 86400000 ≤ addYears t 1 := by
  obtain ⟨hm0, hm1⟩ := getMonth_range t
  have hy : getFullYear t < fullYearOfArg (getFullYear t + 1) := by
    have := fullYearOfArg_ge (getFullYear t + 1)
    omega
  have hmono := makeDay_year_lt (getFullYear t) (fullYearOfArg (getFullYear t + 1))
    (getMonth t) (getDate t) hm0 hm1 hy
  have h1 := makeDay_getters t
  have h2 := timeOfDay_decomp t
  unfold addYears jsDateOf mkTimestamp
  unfold todOf at h2
  omega

theorem todOf_mk (dn r : Int) (h0 : 0 ≤ r) (h1 : r < 86400000) :
    todOf (dn * 86400000 + r) = r := by
  unfold todOf dayNumber
  omega

/-- The source's `addYears` keeps the time of day (hours, minutes, seconds and
milliseconds are re-installed verbatim). -/
theorem addYears_todOf (t : Int) : todOf (addYears t 1) = todOf t := by
  have h2 := timeOfDay_decomp t
  obtain ⟨hb0, hb1⟩ := todOf_bounds t
  have : addYears t 1 = makeDay (fullYearOfArg (getFullYear t + 1)) (getMonth t) (getDate t)
      * 86400000 + todOf t := by
    unfold addYears jsDateOf mkTimestamp
    omega
  rw [this]
  exact todOf_mk _ _ hb0 hb1

theorem addDays_todOf (t k : Int) : todOf (addDays t k) = todOf t := by
  rw [addDays_spec]
  unfold todOf dayNumber
  omega

theorem getHours_eq_todOf (t : Int) : getHours t = (todOf t) / 3600000 := by
  unfold getHours todOf dayNumber
  omega

theorem getMinutes_eq_todOf (t : Int) :
    getMinutes t = ((todOf t) / 60000) % 60 := by
  unfold getMinutes todOf dayNumber
  omega

theorem getHours_mk (dn hh mi : Int) (hh0 : 0 ≤ hh) (hh1 : hh ≤ 23)
    (hm0 : 0 ≤ mi) (hm1 : mi ≤ 59) :
    getHours (dn * 86400000 + hh * 3600000 + mi * 60000) = hh := by
  unfold getHours
  omega

theorem getMinutes_mk (dn hh mi : Int) (hh0 : 0 ≤ hh) (hh1 : hh ≤ 23)
    (hm0 : 0 ≤ mi) (hm1 : mi ≤ 59) :
    getMinutes (dn * 86400000 + hh * 3600000 + mi * 60000) = mi := by
  unfold getMinutes
  omega

/-! ## A small backtracking regex engine with JavaScript semantics

Ordered alternation, greedy quantifiers, capture groups; the list of
results is produced in the order a JavaScript engine would try the
alternatives, so its head is the JavaScript match.  The engine is
structurally recursive on a fuel argument; `engineFuel` is far larger
than the recursion depth any pattern of this file can reach (each call
consumes one unit of fuel, the call depth is bounded by the pattern
size times the input length since every `star` iteration consumes at
least one character). -/

inductive Re where
  | eps : Re
  | lit : Char → Re
  | cls : (Char → Bool) → Re
  | seq : Re → Re → Re
  | alt : Re → Re → Re
  | star : Re → Re
  | grp : Nat → Re → Re

/-- Capture assignment: group index to captured character list. -/
def Caps := List (Nat × List Char)

def setCap (i : Nat) (v : List Char) : Caps → Caps
  | [] => [(i, v)]
  | (j, w) :: rest => if i = j then (i, v) :: rest else (j, w) :: setCap i v rest

def getCap (i : Nat) : Caps → Option (List Char)
  | [] => none
  | (j, w) :: rest => if i = j then some w else getCap i rest

/-- All ways to match `r` against a prefix of `s`, in JavaScript
backtracking order; each result is the capture state and the remaining
suffix.  A `star` iteration that consumes no input stops the loop, as in
the ECMAScript repetition matcher. -/
def mrun : Nat → Re → List Char → Caps → List (Caps × List Char)
  | 0, _, _, _ => []
  | Nat.succ f, r, s, caps =>
    match r with
    | .eps => [(caps, s)]
    | .lit c =>
      match s with
      | [] => []
      | x :: xs => if x = c then [(caps, xs)] else []
    | .cls p =>
      match s with
      | [] => []
      | x :: xs => if p x then [(caps, xs)] else []
    | .seq a b => (mrun f a s caps).flatMap (fun pr => mrun f b pr.2 pr.1)
    | .alt a b => mrun f a s caps ++ mrun f b s caps
    | .star a =>
      ((mrun f a s caps).filter (fun pr => pr.2.length < s.length)).flatMap
        (fun pr => mrun f (.star a) pr.2 pr.1) ++ [(caps, s)]
    | .grp i a =>
      (mrun f a s caps).map
        (fun pr => (setCap i (s.take (s.length - pr.2.length)) pr.1, pr.2))

def reSize : Re → Nat
  | .eps => 1
  | .lit _ => 1
  | .cls _ => 1
  | .seq a b => reSize a + reSize b + 1
  | .alt a b => reSize a + reSize b + 1
  | .star a => reSize a + 1
  | .grp _ a => reSize a + 1

def engineFuel (r : Re) (s : List Char) : Nat := (reSize r + 2) * (s.length + 2)

/-- JavaScript `s.match(re)` for a `^`-anchored pattern: captures and the
rest of the string after the matched prefix. -/
def matchAnchored (r : Re) (s : List Char) : Option (Caps × List Char) :=
  (mrun (engineFuel r s) r s []).head?

/-- JavaScript `s.match(re)` for a `^...$` pattern: the first backtracking
path that also reaches the end of the input. -/
def matchFull (r : Re) (s : List Char) : Option Caps :=
  (((mrun (engineFuel r s) r s []).filter (fun pr => pr.2.isEmpty)).head?).map Prod.fst

/-- JavaScript `s.match(re)` for an unanchored pattern: leftmost match. -/
def searchRe (r : Re) : List Char → Option Caps
  | [] => (matchAnchored r []).map Prod.fst
  | c :: rest =>
    match matchAnchored r (c :: rest) with
    | some pr => some pr.1
    | none => searchRe r rest

/-! ### The concrete patterns of the source. -/

def rstr (s : String) : Re := s.data.foldr (fun c r => .seq (.lit c) r) .eps

def rfail : Re := .cls (fun _ => false)

def ralts (l : List Re) : Re := l.foldr .alt rfail

def ropt (r : Re) : Re := .alt r .eps

def rplus (r : Re) : Re := .seq r (.star r)

def rrep (r : Re) : Nat → Re
  | 0 => .eps
  | Nat.succ n => .seq r (rrep r n)

def spacesRe : Re := .star (.lit ' ')

def rdigits : Re := rplus (.cls Char.isDigit)

def wkChar (c : Char) : Bool :=
  c = '월' || c = '화' || c = '수' || c = '목' || c = '금' || c = '토' || c = '일'

/-- JavaScript `.` (without the `s` flag): anything but a line terminator. -/
def dotCh (c : Char) : Bool :=
  !(c = '\n' || c = '\r' || c = '\u2028' || c = '\u2029')

/-- Source lines 33-34, the combined anchored pattern; capture-group
numbering follows the JavaScript numbering (1-12). -/
def MATCHER : Re :=
  .seq (.grp 1 (ralts [
      .seq (ropt (.grp 2 (ralts [rstr "이달", rstr "이번달", rstr "담달", rstr "다음달",
          .seq (ropt (.grp 3 (ralts [rstr "내년",
              .seq (rrep (.cls Char.isDigit) 4) (.lit '년')])))
            (.seq spacesRe (.seq rdigits (.lit '월')))])))
        (.seq spacesRe (.seq rdigits (rplus (.lit '일')))),
      rstr "오늘", rstr "내일", rstr "모레",
      .seq (ropt (.grp 4 (ralts [rstr "이번주", rstr "담주", rstr "다음주",
          rstr "다담주", rstr "다다음주"])))
        (.seq spacesRe (.grp 5 (.seq (.cls wkChar)
          (.grp 6 (ralts [rstr "요일", rstr "욜"])))))]))
  (.seq (ropt (.grp 7 (.seq spacesRe
      (.seq (ropt (.grp 8 (ralts [rstr "새벽", rstr "아침", rstr "점심", rstr "오전",
          rstr "오후", rstr "저녁", rstr "밤"])))
        (.seq spacesRe (.seq (.grp 9 (ralts [.seq rdigits (.lit '시'),
            .seq rdigits (.seq (.lit ':') rdigits)]))
          (.seq spacesRe (ropt (.grp 10 (ralts [.seq rdigits (.lit '분'),
              rstr "반"]))))))))))
  (.seq (ropt (.lit '에'))
  (.seq (ropt (.grp 11 (.seq spacesRe (.seq (.grp 12 (rplus (.cls dotCh)))
      (rstr "에서")))))
  spacesRe)))

/-- Source line 95: `/(내년|([0-9]{4})년) *([0-9]+)월 *([0-9]+)일/u`. -/
def fullDateRe : Re :=
  .seq (.grp 1 (ralts [rstr "내년",
      .seq (.grp 2 (rrep (.cls Char.isDigit) 4)) (.lit '년')]))
  (.seq spacesRe (.seq (.grp 3 rdigits)
  (.seq (.lit '월') (.seq spacesRe (.seq (.grp 4 rdigits) (.lit '일'))))))

/-- Source line 178: `/(([0-9]+)월){0,1} *([0-9]+)일/u`. -/
def monthDayRe : Re :=
  .seq (ropt (.grp 1 (.seq (.grp 2 rdigits) (.lit '월'))))
    (.seq spacesRe (.seq (.grp 3 rdigits) (.lit '일')))

/-- Source line 89: `/([0-9]+)일/u`. -/
def dayNumRe : Re := .seq (.grp 1 rdigits) (.lit '일')

/-- Source line 141: `/^([0-9]+):([0-9]+)$/u`. -/
def hourMinRe : Re :=
  .seq (.grp 1 rdigits) (.seq (.lit ':') (.grp 2 rdigits))

/-! ### JavaScript string helpers. -/

/-- Characters removed by `String.prototype.trim`. -/
def isWS (c : Char) : Bool := c = ' ' || c = '\t' || c = '\n' || c = '\r'

def jsTrim (l : List Char) : List Char :=
  ((l.dropWhile isWS).reverse.dropWhile isWS).reverse

/-- JavaScript `s.includes(pat)` (substring containment). -/
def containsSeq (pat : List Char) : List Char → Bool
  | [] => pat.isEmpty
  | c :: cs => pat.isPrefixOf (c :: cs) || containsSeq pat cs

/-- Character class of the source line 113 filter `/^[0-9월일 ]+$/u`. -/
def inClass113 (c : Char) : Bool := Char.isDigit c || c = '월' || c = '일' || c = ' '

/-- JavaScript `Number.parseInt(s, 10)` on the strings this parser feeds it
(an optional digit run; `none` models `NaN`). -/
def parseIntJS (l : List Char) : Option Int :=
  let r := l.takeWhile Char.isDigit
  if r.isEmpty then none
  else some (r.foldl (fun acc c => acc * 10 + ((c.toNat : Int) - 48)) 0)

/-- Source line 132: `weekdayToken.replace(/^([월화수목금토일]).*/u, "$1")`;
if the first character is not a weekday character the string is returned
unchanged, otherwise the matched part (first character plus the following
line-terminator-free run) is replaced by that first character. -/
def normalizeWeekdayTok (s : List Char) : List Char :=
  match s with
  | [] => []
  | c :: cs => if wkChar c then c :: cs.dropWhile dotCh else c :: cs

/-! ## Data model (part_001 lines 1-34). -/

/-- Source lines 1-8.  `start` and `end` are `Date` values, modelled as
millisecond timestamps. -/
structure ParsedSchedule where
  title : String
  start : Int
  «end» : Int
  allDay : Bool
  location : Option String
  source : String
deriving DecidableEq

/-- Source lines 10-18. -/
inductive ParseResult where
  | ok : ParsedSchedule → ParseResult
  | err : String → ParseResult
deriving DecidableEq

/-- Source lines 20-23.  `now` is the injected clock (line 54); the
ambient-wall-clock default taken when the option is absent is impure and
lies outside this model, so the model makes `now` explicit. -/
structure ParseOptions where
  now : Int
  defaultDurationMinutes : Option Int
deriving DecidableEq

/-- Source line 25. -/
inductive DateExpressionKind where
  | absoluteWithYear | absoluteMonthDay | monthModifier | weekday | dayModifier
deriving DecidableEq

inductive AmPm where
  | am | pm
deriving DecidableEq

/-- The capture groups of `MATCHER` the source reads (lines 58-64):
`match[1]`, `match[4]`, `match[5]`, `match[8]`, `match[9]`, `match[10]`,
`match[12]`. -/
structure Groups where
  g1 : Option (List Char)
  g4 : Option (List Char)
  g5 : Option (List Char)
  g8 : Option (List Char)
  g9 : Option (List Char)
  g10 : Option (List Char)
  g12 : Option (List Char)
deriving DecidableEq

def extractGroups (caps : Caps) : Groups :=
  ⟨getCap 1 caps, getCap 4 caps, getCap 5 caps, getCap 8 caps, getCap 9 caps,
    getCap 10 caps, getCap 12 caps⟩

/-! ## Token resolution stages (part_001 lines 54-176). -/

/-- Source lines 75-79: exact-equality index into `DAY_MODIFIER_TOKENS`,
guarded by the substring test `/(오늘|내일|모레)/u`. -/
def dayModifierOf (g : Groups) : Option Int :=
  match g.g1 with
  | none => none
  | some s =>
    if containsSeq "오늘".data s || containsSeq "내일".data s || containsSeq "모레".data s then
      if s = "오늘".data then some 0
      else if s = "내일".data then some 1
      else if s = "모레".data then some 2
      else none
    else none

/-- Source lines 81-88: `/(이달|이번달)/u` sets 0, then `/(담달|다음달)/u`
overrides with 1. -/
def monthModifierOf (g : Groups) : Option Int :=
  match g.g1 with
  | none => none
  | some s =>
    if containsSeq "이달".data s || containsSeq "이번달".data s
        || containsSeq "담달".data s || containsSeq "다음달".data s then
      let m1 : Option Int :=
        if containsSeq "이달".data s || containsSeq "이번달".data s then some 0 else none
      if containsSeq "담달".data s || containsSeq "다음달".data s then some 1 else m1
    else none

/-- Source lines 89-92: the `day` assignment inside the month-relative
block, `absoluteDate.match(/([0-9]+)일/u)`. -/
def dayTokenOf (g : Groups) : Option Int :=
  match g.g1 with
  | none => none
  | some s =>
    if containsSeq "이달".data s || containsSeq "이번달".data s
        || containsSeq "담달".data s || containsSeq "다음달".data s then
      match searchRe dayNumRe s with
      | some caps => (getCap 1 caps).bind parseIntJS
      | none => none
    else none

/-- Source line 95: `absoluteDate.match(/(내년|([0-9]{4})년) *([0-9]+)월 *([0-9]+)일/u)`. -/
def fullDateOf (g : Groups) : Option Caps :=
  g.g1.bind (fun s => searchRe fullDateRe s)

/-- Source lines 96-103: `year` after the full-date block (내년 sets
`today.getFullYear() + 1`, an explicit 4-digit year overrides). -/
def yearAfterFull (g : Groups) (today : Int) : Option Int :=
  match fullDateOf g with
  | none => none
  | some caps =>
    let y1 : Option Int :=
      if containsSeq "내년".data (g.g1.getD []) then some (getFullYear today + 1) else none
    match (getCap 2 caps).bind parseIntJS with
    | some y => some y
    | none => y1

/-- Source lines 104-106: `month` after the full-date block. -/
def monthAfterFull (g : Groups) : Option Int :=
  (fullDateOf g).bind (fun caps => (getCap 3 caps).bind parseIntJS)

/-- Source lines 107-109 with line 91: the `day` variable as of line 178. -/
def dayPreResolve (g : Groups) : Option Int :=
  match (fullDateOf g).bind (fun caps => (getCap 4 caps).bind parseIntJS) with
  | some d => some d
  | none => dayTokenOf g

/-- Source lines 113-117: `absoluteDate` survives only if its trim matches
`/^[0-9월일 ]+$/u`, and is replaced by its trim. -/
def filteredAbs (g : Groups) : Option (List Char) :=
  match g.g1 with
  | none => none
  | some s =>
    if !(jsTrim s).isEmpty && (jsTrim s).all inClass113 then some (jsTrim s) else none

/-- Source lines 119-128. -/
def weekModifierOf (g : Groups) : Option Int :=
  match g.g4 with
  | none => none
  | some s =>
    if s = "이번주".data then some 0
    else if s = "담주".data || s = "다음주".data then some 7
    else if s = "다담주".data || s = "다다음주".data then some 14
    else none

/-- Source lines 130-137: normalize to the leading weekday character and
index into `WEEKDAY_TOKENS` (0 = 일). -/
def weekdayOf (g : Groups) : Option Int :=
  match g.g5 with
  | none => none
  | some s =>
    let n := normalizeWeekdayTok s
    if n = "일".data then some 0
    else if n = "월".data then some 1
    else if n = "화".data then some 2
    else if n = "수".data then some 3
    else if n = "목".data then some 4
    else if n = "금".data then some 5
    else if n = "토".data then some 6
    else none

/-- Source lines 141-144: the `H:MM` branch, returning the hour and the
overridden minute token. -/
def hourColonOf (g : Groups) : Option (Int × List Char) :=
  match g.g9 with
  | none => none
  | some s =>
    match matchFull hourMinRe s with
    | none => none
    | some caps =>
      match (getCap 1 caps).bind parseIntJS, getCap 2 caps with
      | some h, some mm => some (h, mm ++ "분".data)
      | _, _ => none

/-- Source lines 139-151: the resolved hour; in the non-colon branch digits
are filtered out of the token and parsed (`NaN` leaves it unset). -/
def hourOf (g : Groups) : Option Int :=
  match g.g9 with
  | none => none
  | some s =>
    match hourColonOf g with
    | some pr => some pr.1
    | none => parseIntJS (s.filter Char.isDigit)

/-- Source line 63 with the line 144 override: the minute token string. -/
def minuteTokenOf (g : Groups) : List Char :=
  match hourColonOf g with
  | some pr => pr.2
  | none => g.g10.getD "0".data

/-- Source lines 153-161. -/
def ampmOf (g : Groups) : Option AmPm :=
  match g.g8 with
  | none => none
  | some s =>
    if s = "새벽".data || s = "아침".data || s = "오전".data then some AmPm.am
    else if s = "점심".data || s = "오후".data || s = "저녁".data || s = "밤".data then
      some AmPm.pm
    else none

/-- Source lines 163-176: the minute value ("반" is 30, otherwise the token
with `분` characters removed is parsed; `NaN` collapses to 0).  The minute
token is always a string, so the value is always defined here. -/
def minuteOf (g : Groups) : Int :=
  let mt := minuteTokenOf g
  let m : Option Int :=
    if mt = "반".data then some 30
    else parseIntJS (mt.filter (fun c => !(c = '분')))
  m.getD 0

/-- Source line 178: `absoluteDate?.match(/(([0-9]+)월){0,1} *([0-9]+)일/u)`,
as the parsed optional month capture and day capture. -/
def absoluteMonthDayOf (g : Groups) : Option (Option Int × Option Int) :=
  match filteredAbs g with
  | none => none
  | some s =>
    match searchRe monthDayRe s with
    | none => none
    | some caps => some ((getCap 2 caps).bind parseIntJS, (getCap 3 caps).bind parseIntJS)

/-! ## Date-family resolution (part_001 lines 178-212). -/

/-- The `dateExpressionKind`, `year`, `month`, `day` variables as of
line 213 (after the `if (date)` extraction of lines 208-212). -/
structure Resolved where
  kind : Option DateExpressionKind
  year : Option Int
  month : Option Int
  day : Option Int
deriving DecidableEq

/-- Source lines 178-212: the first-applicable-wins chain.  The
month-modifier branch can fail hard (lines 190-195).  Branches that build a
`date` immediately re-extract year/month/day from it (lines 208-212). -/
def resolveDate (g : Groups) (today : Int) : Except String Resolved :=
  match absoluteMonthDayOf g with
  | some pr =>
    Except.ok ⟨some DateExpressionKind.absoluteMonthDay, some (getFullYear today),
      some (pr.1.getD (getMonth today + 1)), pr.2⟩
  | none =>
    match monthModifierOf g, dayPreResolve g with
    | some mm, some d =>
      let shifted := addMonths today mm
      let sy := getFullYear shifted
      let sm := getMonth shifted + 1
      if isValidDayOfMonth sy sm d then
        let date := jsDateOf sy (sm - 1) d 0 0 0 0
        Except.ok ⟨some DateExpressionKind.monthModifier, some (getFullYear date),
          some (getMonth date + 1), some (getDate date)⟩
      else Except.error "유효하지 않은 날짜입니다. 월/일 조합을 확인해 주세요."
    | _, _ =>
      match weekdayOf g with
      | some wd =>
        let nw := if wd = 0 then 7 else wd
        let off := (weekModifierOf g).getD 0 - getDay today + nw
        let date := addDays today off
        Except.ok ⟨some DateExpressionKind.weekday, some (getFullYear date),
          some (getMonth date + 1), some (getDate date)⟩
      | none =>
        match dayModifierOf g with
        | some dm =>
          let date := addDays today dm
          Except.ok ⟨some DateExpressionKind.dayModifier, some (getFullYear date),
            some (getMonth date + 1), some (getDate date)⟩
        | none =>
          Except.ok ⟨(if (fullDateOf g).isSome then some DateExpressionKind.absoluteWithYear
              else none),
            yearAfterFull g today, monthAfterFull g, dayPreResolve g⟩

/-! ## Validation, timestamp building and roll-forward
(part_001 lines 214-313). -/

/-- Source line 56. -/
def durationOf (o : ParseOptions) : Int := o.defaultDurationMinutes.getD 60

/-- Source lines 258-264: `am` with hour 12 becomes 0, `pm` below 12 gains
12, everything else is unchanged. -/
def convertHour (ap : Option AmPm) (h : Int) : Int :=
  match ap with
  | some AmPm.am => if h = 12 then 0 else h
  | some AmPm.pm => if h < 12 then h + 12 else h
  | none => h

/-- Source lines 293-296: the `while (start < comparisonNow)` loop advancing
`start` and `end` by `addYears(-, 1)`.  The fuel given by `rollYears` exceeds
the possible number of iterations because each `addYears` application
strictly increases the timestamp (`addYears_one_ge`). -/
def rollYearsGo (cmp : Int) : Nat → Int → Int → Int × Int
  | 0, s, e => (s, e)
  | Nat.succ f, s, e =>
    if s < cmp then rollYearsGo cmp f (addYears s 1) (addYears e 1) else (s, e)

def rollYears (cmp s e : Int) : Int × Int :=
  rollYearsGo cmp ((cmp - s).toNat + 1) s e

/-- Source line 64: `match[12]?.trim() || undefined`. -/
def placeOf (g : Groups) : Option String :=
  match g.g12 with
  | none => none
  | some s => if (jsTrim s).isEmpty then none else some (String.mk (jsTrim s))

/-- Source line 276: the title is the rest after the matched prefix, trimmed,
defaulting to "새 일정". -/
def titleOf (rest : List Char) : String :=
  if (jsTrim rest).isEmpty then "새 일정" else String.mk (jsTrim rest)

/-- Source lines 276-301: the pre-roll start timestamp (lines 283 / 286). -/
def startOf (g : Groups) (year month day : Int) : Int :=
  match (hourOf g).map (convertHour (ampmOf g)) with
  | some h => jsDateOf year (month - 1) day h (minuteOf g) 0 0
  | none => jsDateOf year (month - 1) day 0 0 0 0

/-- Source lines 284 / 287: the pre-roll end timestamp. -/
def endOf (g : Groups) (o : ParseOptions) (year month day : Int) : Int :=
  match (hourOf g).map (convertHour (ampmOf g)) with
  | some _ => startOf g year month day + durationOf o * 60 * 1000
  | none => addDays (startOf g year month day) 1

/-- Source line 290: `comparisonNow` is `now` for timed events and `today`
for all-day events. -/
def comparisonNowOf (g : Groups) (o : ParseOptions) : Int :=
  if (hourOf g).isSome then o.now else startOfDay o.now

/-- Source lines 290-301: the roll-forward applied to the built pair. -/
def rollPair (kind : Option DateExpressionKind) (cmp s e : Int) : Int × Int :=
  if s < cmp then
    (if kind = some DateExpressionKind.absoluteMonthDay then rollYears cmp s e
     else (addDays s 7, addDays e 7))
  else (s, e)

/-- Source lines 276-313: the success value built from the resolved fields. -/
def buildSchedule (g : Groups) (rest : List Char) (src : String) (o : ParseOptions)
    (kind : Option DateExpressionKind) (year month day : Int) : ParsedSchedule :=
  let s := startOf g year month day
  let e := endOf g o year month day
  let pair := rollPair kind (comparisonNowOf g o) s e
  ⟨titleOf rest, pair.1, pair.2, !(hourOf g).isSome, placeOf g, src⟩

/-- Source lines 54-313 after the regex match: `rest` is the input with the
matched prefix removed (the title source, line 276) and `src` the normalized
input (line 44). -/
def parseCore (g : Groups) (rest : List Char) (src : String) (o : ParseOptions) : ParseResult :=
  match resolveDate g (startOfDay o.now) with
  | Except.error e => ParseResult.err e
  | Except.ok r =>
    if (match r.month with
        | some m => decide (m < 1 ∨ 12 < m)
        | none => false) then
      ParseResult.err "월은 1부터 12 사이로 입력해 주세요."
    else if (match r.day with
        | some d => decide (d < 1)
        | none => false) then
      ParseResult.err "일은 1 이상의 값으로 입력해 주세요."
    else if (match r.year, r.month, r.day with
        | some y, some m, some d => !isValidDayOfMonth y m d
        | _, _, _ => false) then
      ParseResult.err "유효하지 않은 날짜입니다. 월/일 조합을 확인해 주세요."
    else if (match hourOf g, ampmOf g with
        | some h, some _ => decide (h < 1 ∨ 12 < h)
        | _, _ => false) then
      ParseResult.err "오전/오후 시간은 1시부터 12시 사이로 입력해 주세요."
    else if (match hourOf g, ampmOf g with
        | some h, none => decide (h < 0 ∨ 23 < h)
        | _, _ => false) then
      ParseResult.err "시간은 0시부터 23시 사이로 입력해 주세요."
    else if decide (minuteOf g < 0 ∨ 59 < minuteOf g) then
      ParseResult.err "분은 0부터 59 사이로 입력해 주세요."
    else
      match r.year, r.month, r.day with
      | some year, some month, some day =>
        ParseResult.ok (buildSchedule g rest src o r.kind year month day)
      | _, _, _ =>
        ParseResult.err "날짜를 계산하지 못했습니다. 숫자 날짜(예: 3월 2일) 또는 요일 표현을 확인해 주세요."

/-- Source lines 36-52: empty-input check, NFC-normalize (identity on the
composed strings modelled here) and trim, the anchored `MATCHER` match, and
the handoff to the rest of the function. -/
def parseKoreanSchedule (input : String) (o : ParseOptions) : ParseResult :=
  if (jsTrim input.data).isEmpty then
    ParseResult.err "일정 문장이 비어 있습니다."
  else
    let scheduleString := jsTrim input.data
    match matchAnchored MATCHER scheduleString with
    | none =>
      ParseResult.err "날짜/시간 패턴을 인식하지 못했습니다. 예) 다음주 화요일 오후 3시에 회의"
    | some pr => parseCore (extractGroups pr.1) pr.2 (String.mk scheduleString) o

/-- The capture groups the regex produces on an input (for stating concrete
instances of group-level theorems). -/
def gOf (input : String) : Option Groups :=
  (matchAnchored MATCHER (jsTrim input.data)).map (fun pr => extractGroups pr.1)

/-- The unmatched rest of an input (the title source). -/
def restOf (input : String) : Option (List Char) :=
  (matchAnchored MATCHER (jsTrim input.data)).map Prod.snd

def ParseResult.isErr : ParseResult → Bool
  | ParseResult.ok _ => false
  | ParseResult.err _ => true

/-! ## Lemmas about the roll-forward loop. -/

/-- Iterated application of the source's `addYears(-, 1)`. -/
def iterYears : Nat → Int → Int
  | 0, t => t
  | Nat.succ n, t => iterYears n (addYears t 1)

/-- With enough fuel the loop returns iterates of `addYears`, stops at the
first iterate not before `cmp`, and iterates at least once when `s < cmp`. -/
theorem rollYearsGo_spec (cmp : Int) :
    ∀ (fuel : Nat) (s e : Int), (cmp - s).toNat < fuel →
    ∃ n, rollYearsGo cmp fuel s e = (iterYears n s, iterYears n e)
      ∧ cmp ≤ iterYears n s
      ∧ (∀ k, k < n → iterYears k s < cmp)
      ∧ (s < cmp → 0 < n) := by
  intro fuel
  induction fuel with
  | zero => intro s e h; omega
  | succ f ih =>
    intro s e h
    by_cases hs : s < cmp
    · have hgrow := addYears_one_ge s
      have hfuel : (cmp - addYears s 1).toNat < f := by omega
      obtain ⟨n, h1, h2, h3, _⟩ := ih (addYears s 1) (addYears e 1) hfuel
      refine ⟨n + 1, ?_, ?_, ?_, ?_⟩
      · simpa [rollYearsGo, hs, iterYears] using h1
      · simpa [iterYears] using h2
      · intro k hk
        match k with
        | 0 => simpa [iterYears] using hs
        | Nat.succ j =>
          have := h3 j (by omega)
          simpa [iterYears] using this
      · intro _; omega
    · refine ⟨0, ?_, by simpa [iterYears] using not_lt.mp hs, by omega, by omega⟩
      simp [rollYearsGo, hs, iterYears]

theorem rollYears_spec (cmp s e : Int) :
    ∃ n, rollYears cmp s e = (iterYears n s, iterYears n e)
      ∧ cmp ≤ iterYears n s
      ∧ (∀ k, k < n → iterYears k s < cmp)
      ∧ (s < cmp → 0 < n) :=
  rollYearsGo_spec cmp ((cmp - s).toNat + 1) s e (by omega)

theorem iterYears_todOf : ∀ (n : Nat) (t : Int), todOf (iterYears n t) = todOf t := by
  intro n
  induction n with
  | zero => intro t; rfl
  | succ m ih =>
    intro t
    calc todOf (iterYears (m + 1) t) = todOf (iterYears m (addYears t 1)) := rfl
      _ = todOf (addYears t 1) := ih (addYears t 1)
      _ = todOf t := addYears_todOf t

theorem rollYearsGo_todOf (cmp : Int) :
    ∀ (fuel : Nat) (s e : Int), todOf (rollYearsGo cmp fuel s e).1 = todOf s := by
  intro fuel
  induction fuel with
  | zero => intro s e; rfl
  | succ f ih =>
    intro s e
    by_cases hs : s < cmp
    · calc todOf (rollYearsGo cmp (f + 1) s e).1
          = todOf (rollYearsGo cmp f (addYears s 1) (addYears e 1)).1 := by
            simp [rollYearsGo, hs]
        _ = todOf (addYears s 1) := ih _ _
        _ = todOf s := addYears_todOf s
    · simp [rollYearsGo, hs]

/-- The roll-forward never changes the time of day of `start`: the 7-day
branch shifts whole days and the year branch reinstalls the clock fields. -/
theorem rollPair_todOf (kind : Option DateExpressionKind) (cmp s e : Int) :
    todOf (rollPair kind cmp s e).1 = todOf s := by
  unfold rollPair
  by_cases hs : s < cmp
  · by_cases hk : kind = some DateExpressionKind.absoluteMonthDay
    · simp only [hs, if_pos, hk, if_true]
      exact rollYearsGo_todOf cmp _ s e
    · simp only [hs, if_pos, hk, if_false, ite_false]
      exact addDays_todOf s 7
  · simp [hs]

theorem getHours_congr {a b : Int} (h : todOf a = todOf b) : getHours a = getHours b := by
  rw [getHours_eq_todOf, getHours_eq_todOf, h]

theorem getMinutes_congr {a b : Int} (h : todOf a = todOf b) : getMinutes a = getMinutes b := by
  rw [getMinutes_eq_todOf, getMinutes_eq_todOf, h]

/-! ## Success characterization of `parseCore`. -/

/-- Inversion: a successful parse passed every range check and returned the
built schedule for the resolved fields. -/
theorem parseCore_ok_inv (g : Groups) (rest : List Char) (src : String) (o : ParseOptions)
    (v : ParsedSchedule) (h : parseCore g rest src o = ParseResult.ok v) :
    ∃ r year month day,
      resolveDate g (startOfDay o.now) = Except.ok r
      ∧ r.year = some year ∧ r.month = some month ∧ r.day = some day
      ∧ 1 ≤ month ∧ month ≤ 12 ∧ 1 ≤ day ∧ isValidDayOfMonth year month day = true
      ∧ (∀ hr a, hourOf g = some hr → ampmOf g = some a → 1 ≤ hr ∧ hr ≤ 12)
      ∧ (∀ hr, hourOf g = some hr → ampmOf g = none → 0 ≤ hr ∧ hr ≤ 23)
      ∧ 0 ≤ minuteOf g ∧ minuteOf g ≤ 59
      ∧ v = buildSchedule g rest src o r.kind year month day := by
  unfold parseCore at h
  split at h
  case _ e heq => simp at h
  case _ r heq =>
  split at h
  case _ hc1 => simp at h
  case _ hc1 =>
  split at h
  case _ hc2 => simp at h
  case _ hc2 =>
  split at h
  case _ hc3 => simp at h
  case _ hc3 =>
  split at h
  case _ hc4 => simp at h
  case _ hc4 =>
  split at h
  case _ hc5 => simp at h
  case _ hc5 =>
  split at h
  case _ hc6 => simp at h
  case _ hc6 =>
  split at h
  case h_2 => simp at h
  case h_1 =>
  rename_i year month day hy hm hd
  rw [hm] at hc1
  rw [hd] at hc2
  rw [hy, hm, hd] at hc3
  simp at hc1 hc2 hc3 hc6
  injection h with hv
  refine ⟨r, year, month, day, heq, hy, hm, hd, by omega, by omega, by omega, hc3,
    ?_, ?_, by omega, by omega, hv.symm⟩
  · intro hr a hhr ha
    rw [hhr, ha] at hc4
    simp at hc4
    omega
  · intro hr hhr ha
    rw [hhr, ha] at hc5
    simp at hc5
    omega

/-- Construction: when the resolved fields exist and every range check
passes, the parse succeeds with the built schedule. -/
theorem parseCore_ok_of (g : Groups) (rest : List Char) (src : String) (o : ParseOptions)
    (r : Resolved) (year month day : Int)
    (hres : resolveDate g (startOfDay o.now) = Except.ok r)
    (hy : r.year = some year) (hm : r.month = some month) (hd : r.day = some day)
    (hm1 : 1 ≤ month) (hm2 : month ≤ 12) (hd1 : 1 ≤ day)
    (hvd : isValidDayOfMonth year month day = true)
    (hh12 : ∀ hr a, hourOf g = some hr → ampmOf g = some a → 1 ≤ hr ∧ hr ≤ 12)
    (hh24 : ∀ hr, hourOf g = some hr → ampmOf g = none → 0 ≤ hr ∧ hr ≤ 23)
    (hmin0 : 0 ≤ minuteOf g) (hmin1 : minuteOf g ≤ 59) :
    parseCore g rest src o = ParseResult.ok (buildSchedule g rest src o r.kind year month day) := by
  have c1 : (match r.month with
      | some m => decide (m < 1 ∨ 12 < m)
      | none => false) = false := by
    rw [hm]; simp; omega
  have c2 : (match r.day with
      | some d => decide (d < 1)
      | none => false) = false := by
    rw [hd]; simp; omega
  have c3 : (match r.year, r.month, r.day with
      | some y, some m, some d => !isValidDayOfMonth y m d
      | _, _, _ => false) = false := by
    rw [hy, hm, hd]; simp [hvd]
  have c4 : (match hourOf g, ampmOf g with
      | some h, some _ => decide (h < 1 ∨ 12 < h)
      | _, _ => false) = false := by
    cases hhr : hourOf g with
    | none => rfl
    | some hr =>
      cases ha : ampmOf g with
      | none => rfl
      | some a =>
        have := hh12 hr a hhr ha
        simp
        omega
  have c5 : (match hourOf g, ampmOf g with
      | some h, none => decide (h < 0 ∨ 23 < h)
      | _, _ => false) = false := by
    cases hhr : hourOf g with
    | none => rfl
    | some hr =>
      cases ha : ampmOf g with
      | some a => rfl
      | none =>
        have := hh24 hr hhr ha
        simp
        omega
  have c6 : decide (minuteOf g < 0 ∨ 59 < minuteOf g) = false := by
    simp
    omega
  unfold parseCore
  rw [hres]
  simp only [c1, c2, c3, c4, c5, c6, Bool.false_eq_true, if_false]
  rw [hy, hm, hd]

deriving instance DecidableEq for Except

/-! ## Claim theorems. -/

/-- C1, counterexample: the input fixes the year 2020 explicitly and lies in
the past of `now` (2026-02-17 09:00), yet the parse succeeds with the start
moved from 2020-01-01 to 2020-01-08 — the 7-day roll-forward IS applied to an
absolute-with-year date, so the date is not returned unchanged. -/
theorem claim1_counterexample :
    parseKoreanSchedule "2020년 1월 1일 회의" ⟨jsDateOf 2026 1 17 9 0 0 0, none⟩
      = ParseResult.ok ⟨"회의", jsDateOf 2020 0 8 0 0 0 0, jsDateOf 2020 0 9 0 0 0 0,
          true, none, "2020년 1월 1일 회의"⟩
    ∧ jsDateOf 2020 0 8 0 0 0 0 ≠ jsDateOf 2020 0 1 0 0 0 0 := by
  decide

/-- C2: with the default options and `now` = 2024-06-01, the input
"2월 29일 23:30에 회의" resolves to 2024-02-29 23:30 (a valid leap day), is in
the past, and the year roll-forward maps `start` to 2025-03-01 23:30 but
`end` (2024-03-01 00:30) to 2025-03-01 00:30: the successful parse returns
`end < start`, violating the `end > start` invariant. -/
theorem claim2_end_before_start :
    parseKoreanSchedule "2월 29일 23:30에 회의" ⟨jsDateOf 2024 5 1 0 0 0 0, none⟩
      = ParseResult.ok ⟨"회의", jsDateOf 2025 2 1 23 30 0 0, jsDateOf 2025 2 1 0 30 0 0,
          false, none, "2월 29일 23:30에 회의"⟩
    ∧ jsDateOf 2025 2 1 0 30 0 0 < jsDateOf 2025 2 1 23 30 0 0 := by
  decide

/-- C3: the all-day input "2월 29일 휴가" with `now` = 2024-06-01 resolves to
the leap day 2024-02-29, is rolled forward year-wise, and both `start`
(2024-02-29 → 2025-03-01) and `end` (2024-03-01 → 2025-03-01) collapse to the
same instant: the result has `allDay = true` with `end = start`, not one
calendar day later. -/
theorem claim3_allday_zero_length :
    parseKoreanSchedule "2월 29일 휴가" ⟨jsDateOf 2024 5 1 0 0 0 0, none⟩
      = ParseResult.ok ⟨"휴가", jsDateOf 2025 2 1 0 0 0 0, jsDateOf 2025 2 1 0 0 0 0,
          true, none, "2월 29일 휴가"⟩
    ∧ addDays (jsDateOf 2025 2 1 0 0 0 0) 1 ≠ jsDateOf 2025 2 1 0 0 0 0 := by
  decide

/-- C7: with `now` = 2026-01-31 the current month is January, so the target
month of "다음달" is February and day 31 should be a hard error; but
`addMonths(today, 1)` is `new Date(2026, 1, 31)` = 2026-03-03, so the code
validates day 31 against March and succeeds with 2026-03-31. -/
theorem claim7_overflow_no_hard_error :
    parseKoreanSchedule "다음달 31일 테스트" ⟨jsDateOf 2026 0 31 9 0 0 0, none⟩
      = ParseResult.ok ⟨"테스트", jsDateOf 2026 2 31 0 0 0 0, jsDateOf 2026 3 1 0 0 0 0,
          true, none, "다음달 31일 테스트"⟩
    ∧ isValidDayOfMonth 2026 2 31 = false
    ∧ getMonth (jsDateOf 2026 0 31 9 0 0 0) + 1 + 1 = 2 := by
  decide

/-- The 7-day branch of the roll-forward, taken by every kind other than
absolute-month-day. -/
theorem rollPair_not_amd {kind : Option DateExpressionKind}
    (h : ¬ kind = some DateExpressionKind.absoluteMonthDay) (cmp s e : Int) :
    rollPair kind cmp s e
      = (if s < cmp then addDays s 7 else s, if s < cmp then addDays e 7 else e) := by
  unfold rollPair
  by_cases hlt : s < cmp
  · rw [if_pos hlt, if_neg h, if_pos hlt, if_pos hlt]
  · rw [if_neg hlt, if_neg hlt, if_neg hlt]

/-- C1, amended: an absolute-with-year date is NOT exempt from roll-forward;
like the weekday / day-modifier / month-modifier kinds it receives a single
7-day shift (of both `start` and `end`) whenever the resolved start is
strictly earlier than the comparison time, and is returned unchanged
otherwise. -/
theorem claim1_explicit_year_rolls_seven_days (g : Groups) (rest : List Char) (src : String)
    (o : ParseOptions) (v : ParsedSchedule) (r : Resolved) (year month day : Int)
    (hres : resolveDate g (startOfDay o.now) = Except.ok r)
    (hkind : r.kind = some DateExpressionKind.absoluteWithYear)
    (hok : parseCore g rest src o = ParseResult.ok v)
    (hy : r.year = some year) (hm : r.month = some month) (hd : r.day = some day) :
    v.start = (if startOf g year month day < comparisonNowOf g o
        then addDays (startOf g year month day) 7 else startOf g year month day)
    ∧ v.«end» = (if startOf g year month day < comparisonNowOf g o
        then addDays (endOf g o year month day) 7 else endOf g o year month day) := by
  obtain ⟨r', year', month', day', hres', hy', hm', hd', _, _, _, _, _, _, _, _, hv⟩ :=
    parseCore_ok_inv g rest src o v hok
  have hrr : r' = r := by
    rw [hres'] at hres
    exact (Except.ok.inj hres)
  subst hrr
  have hyy : year' = year := by rw [hy] at hy'; exact (Option.some.inj hy'.symm)
  have hmm : month' = month := by rw [hm] at hm'; exact (Option.some.inj hm'.symm)
  have hdd : day' = day := by rw [hd] at hd'; exact (Option.some.inj hd'.symm)
  subst hyy hmm hdd
  subst hv
  simp only [buildSchedule]
  rw [hkind, rollPair_not_amd (by simp)]
  exact ⟨rfl, rfl⟩

def c1Groups : Groups := ⟨some "2020년 1월 1일".data, none, none, none, none, none, none⟩

def c1Opts : ParseOptions := ⟨jsDateOf 2026 1 17 9 0 0 0, none⟩

def c1Value : ParsedSchedule :=
  ⟨"회의", jsDateOf 2020 0 8 0 0 0 0, jsDateOf 2020 0 9 0 0 0 0, true, none,
    "2020년 1월 1일 회의"⟩

def c1Resolved : Resolved := ⟨some DateExpressionKind.absoluteWithYear, some 2020, some 1, some 1⟩

/-- C1 witness: the amended theorem applied to the concrete groups the regex
produces on "2020년 1월 1일 회의". -/
theorem claim1_witness :
    gOf "2020년 1월 1일 회의" = some c1Groups
    ∧ c1Value.start = (if startOf c1Groups 2020 1 1 < comparisonNowOf c1Groups c1Opts
        then addDays (startOf c1Groups 2020 1 1) 7 else startOf c1Groups 2020 1 1) := by
  refine ⟨by decide, ?_⟩
  exact (claim1_explicit_year_rolls_seven_days c1Groups "회의".data "2020년 1월 1일 회의"
    c1Opts c1Value c1Resolved 2020 1 1 (by decide) (by decide) (by decide)
    (by decide) (by decide) (by decide)).1

/-- C4: for a bare month/day (kind absolute-month-day) whose resolved start
lies strictly before the comparison time, the returned start is a positive
number of `addYears(-, 1)` iterations of the resolved start, it is no longer
before the comparison time, and every earlier iterate was still before it —
one year is added repeatedly until the date is no longer in the past.  In
particular "1월 1일 오후 3시에 새해 회의" with now = 2026-12-31 10:00 starts
2027-01-01 15:00. -/
theorem claim4_month_day_rolls_years :
    (∀ (g : Groups) (rest : List Char) (src : String) (o : ParseOptions) (v : ParsedSchedule)
        (r : Resolved) (year month day : Int),
      resolveDate g (startOfDay o.now) = Except.ok r →
      r.kind = some DateExpressionKind.absoluteMonthDay →
      parseCore g rest src o = ParseResult.ok v →
      r.year = some year → r.month = some month → r.day = some day →
      startOf g year month day < comparisonNowOf g o →
      ∃ n, 0 < n ∧ v.start = iterYears n (startOf g year month day)
        ∧ comparisonNowOf g o ≤ v.start
        ∧ ∀ k, k < n → iterYears k (startOf g year month day) < comparisonNowOf g o)
    ∧ parseKoreanSchedule "1월 1일 오후 3시에 새해 회의" ⟨jsDateOf 2026 11 31 10 0 0 0, none⟩
        = ParseResult.ok ⟨"새해 회의", jsDateOf 2027 0 1 15 0 0 0, jsDateOf 2027 0 1 16 0 0 0,
            false, none, "1월 1일 오후 3시에 새해 회의"⟩ := by
  constructor
  · intro g rest src o v r year month day hres hkind hok hy hm hd hlt
    obtain ⟨r', year', month', day', hres', hy', hm', hd', _, _, _, _, _, _, _, _, hv⟩ :=
      parseCore_ok_inv g rest src o v hok
    have hrr : r' = r := by rw [hres'] at hres; exact Except.ok.inj hres
    subst hrr
    have hyy : year' = year := by rw [hy] at hy'; exact Option.some.inj hy'.symm
    have hmm : month' = month := by rw [hm] at hm'; exact Option.some.inj hm'.symm
    have hdd : day' = day := by rw [hd] at hd'; exact Option.some.inj hd'.symm
    rw [hyy, hmm, hdd] at hv
    subst hv
    simp only [buildSchedule]
    rw [hkind]
    unfold rollPair
    rw [if_pos hlt, if_pos rfl]
    obtain ⟨n, hroll, hge, hbefore, hpos⟩ := rollYears_spec (comparisonNowOf g o)
      (startOf g year month day) (endOf g o year month day)
    rw [hroll]
    exact ⟨n, hpos hlt, rfl, hge, hbefore⟩
  · decide

def c4Groups : Groups :=
  ⟨some "1월 1일".data, none, none, some "오후".data, some "3시".data, none, none⟩

def c4Opts : ParseOptions := ⟨jsDateOf 2026 11 31 10 0 0 0, none⟩

def c4Value : ParsedSchedule :=
  ⟨"새해 회의", jsDateOf 2027 0 1 15 0 0 0, jsDateOf 2027 0 1 16 0 0 0, false, none,
    "1월 1일 오후 3시에 새해 회의"⟩

def c4Resolved : Resolved :=
  ⟨some DateExpressionKind.absoluteMonthDay, some 2026, some 1, some 1⟩

/-- C4 witness: the general statement applied to the spec's own example. -/
theorem claim4_witness :
    gOf "1월 1일 오후 3시에 새해 회의" = some c4Groups
    ∧ ∃ n, 0 < n ∧ c4Value.start = iterYears n (startOf c4Groups 2026 1 1)
        ∧ comparisonNowOf c4Groups c4Opts ≤ c4Value.start
        ∧ ∀ k, k < n →
            iterYears k (startOf c4Groups 2026 1 1) < comparisonNowOf c4Groups c4Opts := by
  refine ⟨by decide, ?_⟩
  exact claim4_month_day_rolls_years.1 c4Groups "새해 회의".data "1월 1일 오후 3시에 새해 회의"
    c4Opts c4Value c4Resolved 2026 1 1 (by decide) (by decide) (by decide) (by decide)
    (by decide) (by decide) (by decide)

/-- Failure construction: with valid date fields, an out-of-range hour fails
with the matching message (12-hour with a period token, 24-hour without). -/
theorem parseCore_hour_err (g : Groups) (rest : List Char) (src : String) (o : ParseOptions)
    (r : Resolved) (year month day hr : Int)
    (hres : resolveDate g (startOfDay o.now) = Except.ok r)
    (hy : r.year = some year) (hm : r.month = some month) (hd : r.day = some day)
    (hm1 : 1 ≤ month) (hm2 : month ≤ 12) (hd1 : 1 ≤ day)
    (hvd : isValidDayOfMonth year month day = true)
    (hhour : hourOf g = some hr) :
    (∀ a, ampmOf g = some a → (hr < 1 ∨ 12 < hr) →
      parseCore g rest src o = ParseResult.err "오전/오후 시간은 1시부터 12시 사이로 입력해 주세요.")
    ∧ (ampmOf g = none → (hr < 0 ∨ 23 < hr) →
      parseCore g rest src o = ParseResult.err "시간은 0시부터 23시 사이로 입력해 주세요.") := by
  have c1 : (match r.month with
      | some m => decide (m < 1 ∨ 12 < m)
      | none => false) = false := by
    rw [hm]; simp; omega
  have c2 : (match r.day with
      | some d => decide (d < 1)
      | none => false) = false := by
    rw [hd]; simp; omega
  have c3 : (match r.year, r.month, r.day with
      | some y, some m, some d => !isValidDayOfMonth y m d
      | _, _, _ => false) = false := by
    rw [hy, hm, hd]; simp [hvd]
  constructor
  · intro a ha hout
    have c4 : (match hourOf g, ampmOf g with
        | some h, some _ => decide (h < 1 ∨ 12 < h)
        | _, _ => false) = true := by
      rw [hhour, ha]; simp; omega
    unfold parseCore
    rw [hres]
    simp only [c1, c2, c3, c4, Bool.false_eq_true, if_false, if_true]
  · intro ha hout
    have c4 : (match hourOf g, ampmOf g with
        | some h, some _ => decide (h < 1 ∨ 12 < h)
        | _, _ => false) = false := by
      rw [hhour, ha]
    have c5 : (match hourOf g, ampmOf g with
        | some h, none => decide (h < 0 ∨ 23 < h)
        | _, _ => false) = true := by
      rw [hhour, ha]; simp; omega
    unfold parseCore
    rw [hres]
    simp only [c1, c2, c3, c4, c5, Bool.false_eq_true, if_false, if_true]

/-- C5, counterexample: "13월 1일 오후 3시에 회의" has a period-of-day token
and hour 3, which lies inside [1, 12], yet the parse fails (the month 13 is
rejected first) — failure is not equivalent to the hour being out of range. -/
theorem claim5_counterexample :
    ((gOf "13월 1일 오후 3시에 회의").map (fun g => (hourOf g, ampmOf g)))
      = some (some 3, some AmPm.pm)
    ∧ parseKoreanSchedule "13월 1일 오후 3시에 회의" ⟨jsDateOf 2026 1 17 9 0 0 0, none⟩
      = ParseResult.err "월은 1부터 12 사이로 입력해 주세요." := by
  decide

/-- C5, amended: restricted to inputs whose date component resolves and
passes its range checks and whose minute is in range, a parse with an hour
token fails exactly when the hour is outside [1, 12] (period-of-day token
present) respectively outside [0, 23] (no period-of-day token); in
particular "오후 14:30" fails even though 14 is a syntactically valid hour. -/
theorem claim5_hour_range (g : Groups) (rest : List Char) (src : String) (o : ParseOptions)
    (r : Resolved) (year month day hr : Int)
    (hhour : hourOf g = some hr)
    (hres : resolveDate g (startOfDay o.now) = Except.ok r)
    (hy : r.year = some year) (hm : r.month = some month) (hd : r.day = some day)
    (hm1 : 1 ≤ month) (hm2 : month ≤ 12) (hd1 : 1 ≤ day)
    (hvd : isValidDayOfMonth year month day = true)
    (hmin0 : 0 ≤ minuteOf g) (hmin1 : minuteOf g ≤ 59) :
    (parseCore g rest src o).isErr = true ↔
      (match ampmOf g with
       | some _ => hr < 1 ∨ 12 < hr
       | none => hr < 0 ∨ 23 < hr) := by
  have herr := parseCore_hour_err g rest src o r year month day hr hres hy hm hd
    hm1 hm2 hd1 hvd hhour
  cases ha : ampmOf g with
  | none =>
    simp only
    constructor
    · intro hisErr
      by_contra hcon
      push_neg at hcon
      have hok := parseCore_ok_of g rest src o r year month day hres hy hm hd hm1 hm2 hd1 hvd
        (fun hr' a' hhr' ha' => by rw [ha] at ha'; exact absurd ha' (by simp))
        (fun hr' hhr' _ => by
          rw [hhour] at hhr'
          have := Option.some.inj hhr'
          omega)
        hmin0 hmin1
      rw [hok] at hisErr
      simp [ParseResult.isErr] at hisErr
    · intro hout
      rw [herr.2 ha hout]
      rfl
  | some a =>
    simp only
    constructor
    · intro hisErr
      by_contra hcon
      push_neg at hcon
      have hok := parseCore_ok_of g rest src o r year month day hres hy hm hd hm1 hm2 hd1 hvd
        (fun hr' a' hhr' _ => by
          rw [hhour] at hhr'
          have := Option.some.inj hhr'
          omega)
        (fun hr' hhr' ha' => by rw [ha] at ha'; exact absurd ha' (by simp))
        hmin0 hmin1
      rw [hok] at hisErr
      simp [ParseResult.isErr] at hisErr
    · intro hout
      rw [herr.1 a ha hout]
      rfl

def c5Groups : Groups :=
  ⟨some "오늘".data, none, none, some "오후".data, some "14:30".data, none, none⟩

def c5Opts : ParseOptions := ⟨jsDateOf 2026 1 17 9 0 0 0, none⟩

def c5Resolved : Resolved := ⟨some DateExpressionKind.dayModifier, some 2026, some 2, some 17⟩

/-- C5 witness: the amended equivalence at the spec's "오늘 오후 14:30에 회의"
example — the hour 14 with a period-of-day token makes the parse fail. -/
theorem claim5_witness :
    gOf "오늘 오후 14:30에 회의" = some c5Groups
    ∧ ((parseCore c5Groups "회의".data "오늘 오후 14:30에 회의" c5Opts).isErr = true ↔
        (match ampmOf c5Groups with
         | some _ => (14 : Int) < 1 ∨ (12 : Int) < 14
         | none => (14 : Int) < 0 ∨ (23 : Int) < 14)) := by
  refine ⟨by decide, ?_⟩
  exact claim5_hour_range c5Groups "회의".data "오늘 오후 14:30에 회의" c5Opts c5Resolved
    2026 2 17 14 (by decide) (by decide) (by decide) (by decide) (by decide) (by decide)
    (by decide) (by decide) (by decide) (by decide) (by decide)

/-- Bounds of the converted hour under the checks the parser enforces. -/
theorem convertHour_bounds (g : Groups) (hr : Int)
    (h12 : ∀ a, ampmOf g = some a → 1 ≤ hr ∧ hr ≤ 12)
    (h24 : ampmOf g = none → 0 ≤ hr ∧ hr ≤ 23) :
    0 ≤ convertHour (ampmOf g) hr ∧ convertHour (ampmOf g) hr ≤ 23 := by
  cases ha : ampmOf g with
  | none =>
    have := h24 ha
    simp only [convertHour]
    omega
  | some a =>
    have := h12 a ha
    cases a with
    | am =>
      simp only [convertHour]
      split <;> omega
    | pm =>
      simp only [convertHour]
      split <;> omega

/-- The clock fields of the pre-roll start: the converted hour and the
resolved minute. -/
theorem startOf_fields (g : Groups) (year month day hr : Int)
    (hhour : hourOf g = some hr)
    (hcb0 : 0 ≤ convertHour (ampmOf g) hr) (hcb1 : convertHour (ampmOf g) hr ≤ 23)
    (hm0 : 0 ≤ minuteOf g) (hm1 : minuteOf g ≤ 59) :
    getHours (startOf g year month day) = convertHour (ampmOf g) hr
    ∧ getMinutes (startOf g year month day) = minuteOf g := by
  unfold startOf
  rw [hhour]
  show getHours (jsDateOf year (month - 1) day (convertHour (ampmOf g) hr) (minuteOf g) 0 0)
      = convertHour (ampmOf g) hr
    ∧ getMinutes (jsDateOf year (month - 1) day (convertHour (ampmOf g) hr) (minuteOf g) 0 0)
      = minuteOf g
  unfold jsDateOf mkTimestamp
  have e : makeDay (fullYearOfArg year) (month - 1) day * 86400000
        + convertHour (ampmOf g) hr * 3600000 + minuteOf g * 60000 + 0 * 1000 + 0
      = makeDay (fullYearOfArg year) (month - 1) day * 86400000
        + convertHour (ampmOf g) hr * 3600000 + minuteOf g * 60000 := by
    ring
  rw [e]
  exact ⟨getHours_mk _ _ _ hcb0 hcb1 hm0 hm1, getMinutes_mk _ _ _ hcb0 hcb1 hm0 hm1⟩

/-- C6: on every successful timed parse the hour of day of the returned start
is the 12-to-24-hour conversion of the hour token: AM 12 becomes 0, PM below
12 gains 12, PM 12 stays 12, and with no period-of-day token the hour is used
unchanged (the roll-forward never changes the time of day). -/
theorem claim6_hour_conversion (g : Groups) (rest : List Char) (src : String)
    (o : ParseOptions) (v : ParsedSchedule) (hr : Int)
    (hok : parseCore g rest src o = ParseResult.ok v)
    (hhour : hourOf g = some hr) :
    (ampmOf g = some AmPm.am → hr = 12 → getHours v.start = 0)
    ∧ (ampmOf g = some AmPm.pm → hr < 12 → getHours v.start = hr + 12)
    ∧ (ampmOf g = some AmPm.pm → hr = 12 → getHours v.start = 12)
    ∧ (ampmOf g = none → getHours v.start = hr) := by
  obtain ⟨r, year, month, day, hres, hy, hm, hd, _, _, _, _, h12, h24, hmin0, hmin1, hv⟩ :=
    parseCore_ok_inv g rest src o v hok
  have hb := convertHour_bounds g hr (fun a ha => h12 hr a hhour ha)
    (fun ha => h24 hr hhour ha)
  have hsf := startOf_fields g year month day hr hhour hb.1 hb.2 hmin0 hmin1
  have hstart : getHours v.start = convertHour (ampmOf g) hr := by
    subst hv
    have hpres := rollPair_todOf r.kind (comparisonNowOf g o) (startOf g year month day)
      (endOf g o year month day)
    calc getHours (buildSchedule g rest src o r.kind year month day).start
        = getHours (startOf g year month day) := getHours_congr hpres
      _ = convertHour (ampmOf g) hr := hsf.1
  refine ⟨?_, ?_, ?_, ?_⟩
  · intro ha h12eq
    rw [ha, h12eq] at hstart
    simpa [convertHour] using hstart
  · intro ha hlt
    rw [ha] at hstart
    rw [hstart]
    simp [convertHour, if_pos hlt]
  · intro ha h12eq
    rw [ha, h12eq] at hstart
    simpa [convertHour] using hstart
  · intro ha
    rw [ha] at hstart
    simpa [convertHour] using hstart

def c6NoonGroups : Groups :=
  ⟨some "오늘".data, none, none, some "오후".data, some "12시".data, none, none⟩

def c6NoonValue : ParsedSchedule :=
  ⟨"회의", jsDateOf 2026 1 17 12 0 0 0, jsDateOf 2026 1 17 13 0 0 0, false, none,
    "오늘 오후 12시에 회의"⟩

def c6MidnightGroups : Groups :=
  ⟨some "내일".data, none, none, some "오전".data, some "12시".data, none, none⟩

def c6MidnightValue : ParsedSchedule :=
  ⟨"회의", jsDateOf 2026 1 18 0 0 0 0, jsDateOf 2026 1 18 1 0 0 0, false, none,
    "내일 오전 12시에 회의"⟩

def c6Opts : ParseOptions := ⟨jsDateOf 2026 1 17 9 0 0 0, none⟩

/-- C6 witness: "오후 12시" keeps hour 12 (noon) and "오전 12시" becomes hour 0
(midnight). -/
theorem claim6_witness :
    gOf "오늘 오후 12시에 회의" = some c6NoonGroups
    ∧ getHours c6NoonValue.start = 12
    ∧ gOf "내일 오전 12시에 회의" = some c6MidnightGroups
    ∧ getHours c6MidnightValue.start = 0 := by
  refine ⟨by decide, ?_, by decide, ?_⟩
  · exact (claim6_hour_conversion c6NoonGroups "회의".data "오늘 오후 12시에 회의" c6Opts
      c6NoonValue 12 (by decide) (by decide)).2.2.1 (by decide) (by decide)
  · exact (claim6_hour_conversion c6MidnightGroups "회의".data "내일 오전 12시에 회의" c6Opts
      c6MidnightValue 12 (by decide) (by decide)).1 (by decide) (by decide)

/-- C10: an hour token with no minute refinement (no `분` token group, not the
`H:MM` form) resolves the minute to 0 (the default token "0"), the result is
a timed event, and the returned start is exactly on the hour. -/
theorem claim10_hour_alone_on_the_hour (g : Groups) (rest : List Char) (src : String)
    (o : ParseOptions) (v : ParsedSchedule) (hr : Int)
    (hg10 : g.g10 = none) (hcolon : hourColonOf g = none)
    (hhour : hourOf g = some hr)
    (hok : parseCore g rest src o = ParseResult.ok v) :
    minuteOf g = 0 ∧ v.allDay = false ∧ getMinutes v.start = 0 := by
  have hmt : minuteTokenOf g = "0".data := by
    simp [minuteTokenOf, hcolon, hg10]
  have hm0 : minuteOf g = 0 := by
    simp only [minuteOf, hmt]
    decide
  obtain ⟨r, year, month, day, hres, hy, hm, hd, _, _, _, _, h12, h24, hmin0, hmin1, hv⟩ :=
    parseCore_ok_inv g rest src o v hok
  have hb := convertHour_bounds g hr (fun a ha => h12 hr a hhour ha)
    (fun ha => h24 hr hhour ha)
  have hsf := startOf_fields g year month day hr hhour hb.1 hb.2 hmin0 hmin1
  refine ⟨hm0, ?_, ?_⟩
  · subst hv
    show (!(hourOf g).isSome) = false
    rw [hhour]
    rfl
  · subst hv
    have hpres := rollPair_todOf r.kind (comparisonNowOf g o) (startOf g year month day)
      (endOf g o year month day)
    calc getMinutes (buildSchedule g rest src o r.kind year month day).start
        = getMinutes (startOf g year month day) := getMinutes_congr hpres
      _ = minuteOf g := hsf.2
      _ = 0 := hm0

def c10Groups : Groups :=
  ⟨some "내일".data, none, none, none, some "3시".data, none, none⟩

def c10Value : ParsedSchedule :=
  ⟨"회의", jsDateOf 2026 1 18 3 0 0 0, jsDateOf 2026 1 18 4 0 0 0, false, none,
    "내일 3시 회의"⟩

def c10Opts : ParseOptions := ⟨jsDateOf 2026 1 17 9 0 0 0, none⟩

/-- C10 witness: "내일 3시 회의" is a timed event at 03:00 sharp. -/
theorem claim10_witness :
    gOf "내일 3시 회의" = some c10Groups
    ∧ (minuteOf c10Groups = 0 ∧ c10Value.allDay = false ∧ getMinutes c10Value.start = 0) := by
  refine ⟨by decide, ?_⟩
  exact claim10_hour_alone_on_the_hour c10Groups "회의".data "내일 3시 회의" c10Opts
    c10Value 3 (by decide) (by decide) (by decide) (by decide)

theorem weekdayOf_range (g : Groups) (wd : Int) (h : weekdayOf g = some wd) :
    0 ≤ wd ∧ wd ≤ 6 := by
  unfold weekdayOf at h
  split at h
  · simp at h
  · simp only [] at h
    split_ifs at h <;> first
      | (obtain rfl := Option.some.inj h; omega)
      | simp at h

/-- C8: when the weekday branch resolves the date, the resolved civil fields
are those of `addDays today (weekModifierDays - today.getDay() + nw)` where
`nw` normalizes Sunday (index 0) to 7; the week-modifier tokens map to 0 / 7 /
14 days and the weekday characters 일..토 to 0..6. -/
theorem claim8_weekday_formula :
    (∀ (g : Groups) (today : Int) (r : Resolved) (wd : Int),
      resolveDate g today = Except.ok r →
      r.kind = some DateExpressionKind.weekday →
      weekdayOf g = some wd →
      0 ≤ wd ∧ wd ≤ 6
      ∧ r.year = some (getFullYear (addDays today
          ((weekModifierOf g).getD 0 - getDay today + (if wd = 0 then 7 else wd))))
      ∧ r.month = some (getMonth (addDays today
          ((weekModifierOf g).getD 0 - getDay today + (if wd = 0 then 7 else wd))) + 1)
      ∧ r.day = some (getDate (addDays today
          ((weekModifierOf g).getD 0 - getDay today + (if wd = 0 then 7 else wd)))))
    ∧ (weekModifierOf ⟨none, some "이번주".data, none, none, none, none, none⟩ = some 0
      ∧ weekModifierOf ⟨none, some "담주".data, none, none, none, none, none⟩ = some 7
      ∧ weekModifierOf ⟨none, some "다음주".data, none, none, none, none, none⟩ = some 7
      ∧ weekModifierOf ⟨none, some "다담주".data, none, none, none, none, none⟩ = some 14
      ∧ weekModifierOf ⟨none, some "다다음주".data, none, none, none, none, none⟩ = some 14)
    ∧ (weekdayOf ⟨none, none, some "일요일".data, none, none, none, none⟩ = some 0
      ∧ weekdayOf ⟨none, none, some "월요일".data, none, none, none, none⟩ = some 1
      ∧ weekdayOf ⟨none, none, some "화요일".data, none, none, none, none⟩ = some 2
      ∧ weekdayOf ⟨none, none, some "수요일".data, none, none, none, none⟩ = some 3
      ∧ weekdayOf ⟨none, none, some "목요일".data, none, none, none, none⟩ = some 4
      ∧ weekdayOf ⟨none, none, some "금요일".data, none, none, none, none⟩ = some 5
      ∧ weekdayOf ⟨none, none, some "토요일".data, none, none, none, none⟩ = some 6) := by
  refine ⟨?_, by decide, by decide⟩
  intro g today r wd hres hkind hwd
  obtain ⟨hwd0, hwd6⟩ := weekdayOf_range g wd hwd
  unfold resolveDate at hres
  split at hres
  · obtain rfl := Except.ok.inj hres
    simp at hkind
  · split at hres
    · simp only [] at hres
      split at hres
      · obtain rfl := Except.ok.inj hres
        simp at hkind
      · simp at hres
    · split at hres
      · rename_i wd' hwd'
        simp only [] at hres
        rw [hwd] at hwd'
        obtain rfl := Option.some.inj hwd'
        obtain rfl := Except.ok.inj hres
        exact ⟨hwd0, hwd6, rfl, rfl, rfl⟩
      · split at hres
        · simp only [] at hres
          obtain rfl := Except.ok.inj hres
          simp at hkind
        · obtain rfl := Except.ok.inj hres
          simp only at hkind
          split at hkind <;> simp at hkind

def c8Groups : Groups :=
  ⟨some "이번주 일요일".data, some "이번주".data, some "일요일".data, none, none, none, none⟩

def c8Today : Int := startOfDay (jsDateOf 2026 1 17 9 0 0 0)

def c8Target : Int :=
  addDays c8Today ((weekModifierOf c8Groups).getD 0 - getDay c8Today
    + (if (0 : Int) = 0 then 7 else (0 : Int)))

def c8Resolved : Resolved := ⟨some DateExpressionKind.weekday, some 2026, some 2, some 22⟩

/-- C8 witness: on Tuesday 2026-02-17, "이번주 일요일" resolves to Sunday
2026-02-22 — forward within the week, not backward. -/
theorem claim8_witness :
    gOf "이번주 일요일 회의" = some c8Groups
    ∧ (0 ≤ (0 : Int) ∧ (0 : Int) ≤ 6
      ∧ c8Resolved.year = some (getFullYear c8Target)
      ∧ c8Resolved.month = some (getMonth c8Target + 1)
      ∧ c8Resolved.day = some (getDate c8Target))
    ∧ c8Today < c8Target := by
  refine ⟨by decide, ?_, by decide⟩
  exact claim8_weekday_formula.1 c8Groups c8Today c8Resolved 0
    (by decide) (by decide) (by decide)

/-- The complete set of diagnostics the parser can emit
(part_001 lines 40, 50, 193/231, 217, 224, 239, 246, 253, 272). -/
def parseErrorMessages : List String :=
  ["일정 문장이 비어 있습니다.",
   "날짜/시간 패턴을 인식하지 못했습니다. 예) 다음주 화요일 오후 3시에 회의",
   "유효하지 않은 날짜입니다. 월/일 조합을 확인해 주세요.",
   "월은 1부터 12 사이로 입력해 주세요.",
   "일은 1 이상의 값으로 입력해 주세요.",
   "오전/오후 시간은 1시부터 12시 사이로 입력해 주세요.",
   "시간은 0시부터 23시 사이로 입력해 주세요.",
   "분은 0부터 59 사이로 입력해 주세요.",
   "날짜를 계산하지 못했습니다. 숫자 날짜(예: 3월 2일) 또는 요일 표현을 확인해 주세요."]

theorem resolveDate_err (g : Groups) (today : Int) (e : String)
    (h : resolveDate g today = Except.error e) :
    e = "유효하지 않은 날짜입니다. 월/일 조합을 확인해 주세요." := by
  unfold resolveDate at h
  split at h
  · simp at h
  · split at h
    · simp only [] at h
      split at h
      · simp at h
      · exact (Except.error.inj h).symm
    · split at h
      · simp at h
      · split at h
        · simp at h
        · simp at h

theorem parseCore_err_mem (g : Groups) (rest : List Char) (src : String) (o : ParseOptions)
    (e : String) (h : parseCore g rest src o = ParseResult.err e) :
    e ∈ parseErrorMessages := by
  unfold parseCore at h
  split at h
  · rename_i e' heq
    have hmsg := resolveDate_err g (startOfDay o.now) e' heq
    obtain rfl := ParseResult.err.inj h
    rw [hmsg]
    decide
  · split at h
    · obtain rfl := ParseResult.err.inj h
      decide
    · split at h
      · obtain rfl := ParseResult.err.inj h
        decide
      · split at h
        · obtain rfl := ParseResult.err.inj h
          decide
        · split at h
          · obtain rfl := ParseResult.err.inj h
            decide
          · split at h
            · obtain rfl := ParseResult.err.inj h
              decide
            · split at h
              · obtain rfl := ParseResult.err.inj h
                decide
              · split at h
                · simp at h
                · obtain rfl := ParseResult.err.inj h
                  decide

/-- C9: the parser is a total function (the embedding itself is a Lean
function, so no exception escapes); an empty or whitespace-only input fails
with the distinct empty-input diagnostic, and every failure whatsoever is the
error variant carrying one of the parser's fixed descriptive messages. -/
theorem claim9_total_errors :
    ∀ (input : String) (o : ParseOptions),
      ((jsTrim input.data).isEmpty = true →
        parseKoreanSchedule input o = ParseResult.err "일정 문장이 비어 있습니다.")
      ∧ ∀ e, parseKoreanSchedule input o = ParseResult.err e → e ∈ parseErrorMessages := by
  intro input o
  constructor
  · intro hempty
    unfold parseKoreanSchedule
    rw [if_pos hempty]
  · intro e h
    unfold parseKoreanSchedule at h
    split at h
    · obtain rfl := ParseResult.err.inj h
      decide
    · simp only [] at h
      split at h
      · obtain rfl := ParseResult.err.inj h
        decide
      · exact parseCore_err_mem _ _ _ _ _ h

/-- C9 witness: the empty input yields the empty-input diagnostic, and a
sentence with no date expression yields the no-match diagnostic, which is in
the fixed message set. -/
theorem claim9_witness :
    parseKoreanSchedule "" ⟨0, none⟩ = ParseResult.err "일정 문장이 비어 있습니다."
    ∧ "날짜/시간 패턴을 인식하지 못했습니다. 예) 다음주 화요일 오후 3시에 회의"
        ∈ parseErrorMessages := by
  constructor
  · exact (claim9_total_errors "" ⟨0, none⟩).1 (by decide)
  · exact (claim9_total_errors "회의 잡아줘" ⟨0, none⟩).2 _ (by decide)

end KSP
